import Mathlib

/-!
Verification of the account/position ledger and order-settlement engine of the
`agent-quant` repository, together with its backtest trading-day enumeration.

Shallow embedding conventions:
* Python `Decimal` money values are embedded as `ℚ` (exact decimal arithmetic;
  the source never uses binary floating point for money).
* Python `int` share quantities are embedded as `ℤ` (the source freely
  subtracts and compares against 0).
* Database rows become plain structures; `async` persistence calls are erased
  (the functions below are the pure state transformations the source performs
  on the fetched rows, in the source's program order).
* Python exceptions become `Except`/error values.

Sources embedded:
* `src/app/trade/account.py` — `apply_order_settlement` (the Account Ledger;
  `src/app/virtual_trade/order.py` imports the identically named function from
  `app.virtual_trade.account`, a module not present under `src/`, whose
  contract the spec gives in §4.1 and which `src/app/trade/account.py`
  implements verbatim).
* `src/app/virtual_trade/position.py` — `apply_buy_to_position`,
  `apply_sell_to_position`, `calculate_realized_pnl`, `calculate_unrealized`.
* `src/app/virtual_trade/order.py` — `place_buy_order`, `place_sell_order`.
* `src/app/backtest/engine.py` — `BacktestEngine._iter_trading_days`.
-/

deriving instance DecidableEq for Except

namespace AgentQuant

/-- `OrderSide` from `app/models` (only BUY/SELL are used by the ledger). -/
inductive OrderSide where
  | BUY
  | SELL
deriving DecidableEq, Repr

/-- `PositionSide` from `app/models/virtual_trade_position.py`. -/
inductive PositionSide where
  | LONG
  | SHORT
deriving DecidableEq, Repr

/-- `PositionStatus` from `app/models/virtual_trade_position.py`. -/
inductive PositionStatus where
  | OPEN
  | CLOSED
deriving DecidableEq, Repr

/-- `OrderStatus` from `app/models` (the engine only ever creates FILLED rows). -/
inductive OrderStatus where
  | PENDING
  | FILLED
  | CANCELLED
  | FAILED
deriving DecidableEq, Repr

/-- The money fields of a `TradeAccount` row (`app/models/trade_account.py`);
identity and display fields (id, account_number, name, is_active, description)
are elided: `apply_order_settlement` reads and writes only these three. -/
structure TradeAccount where
  balance : ℚ
  buying_power : ℚ
  realized_pnl : ℚ
deriving DecidableEq, Repr

/-- Errors raised by `apply_order_settlement` in `src/app/trade/account.py`:
`ValueError` for non-positive cash, `TradeAccountNotFoundError`,
`InsufficientBuyingPowerError`. -/
inductive AccountError where
  | valueError
  | accountNotFound
  | insufficientBuyingPower
deriving DecidableEq, Repr

/-- `apply_order_settlement` from `src/app/trade/account.py` lines 89-124.
The row fetch becomes an `Option TradeAccount` argument; the checks and the
mutations are in the source's order (all checks precede any mutation). -/
def apply_order_settlement (account? : Option TradeAccount) (side : OrderSide)
    (cash_amount : ℚ) (realized_pnl_delta : ℚ) : Except AccountError TradeAccount :=
  if cash_amount ≤ 0 then
    .error .valueError
  else
    match account? with
    | none => .error .accountNotFound
    | some account =>
      match side with
      | .BUY =>
        if account.balance < cash_amount ∨ account.buying_power < cash_amount then
          .error .insufficientBuyingPower
        else
          .ok { account with
                balance := account.balance - cash_amount,
                buying_power := account.buying_power - cash_amount }
      | .SELL =>
        .ok { balance := account.balance + cash_amount,
              buying_power := account.buying_power + cash_amount,
              realized_pnl := account.realized_pnl + realized_pnl_delta }

/-- The fields of a `VirtualTradePosition` row
(`app/models/virtual_trade_position.py`) that the settlement engine reads or
writes; identity fields (account_number, symbol_exchange) and the untouched
profit_target/stop_loss/notes are elided. -/
structure VirtualTradePosition where
  side : PositionSide
  quantity : ℤ
  available_quantity : ℤ
  average_cost : ℚ
  market_price : Option ℚ
  market_value : ℚ
  unrealized_pnl : ℚ
  realized_pnl : ℚ
  status : PositionStatus
deriving DecidableEq, Repr

/-- `calculate_unrealized` from `src/app/virtual_trade/position.py` lines
167-175. -/
def calculate_unrealized (position : VirtualTradePosition) : ℚ :=
  match position.market_price with
  | none => 0
  | some mp =>
    if position.quantity ≤ 0 then 0
    else
      match position.side with
      | .SHORT => (position.average_cost - mp) * (position.quantity : ℚ)
      | .LONG => (mp - position.average_cost) * (position.quantity : ℚ)

/-- `calculate_realized_pnl` from `src/app/virtual_trade/position.py` lines
153-164. -/
def calculate_realized_pnl (side : PositionSide) (average_cost : ℚ)
    (execution_price : ℚ) (quantity : ℤ) : ℚ :=
  match side with
  | .SHORT => (average_cost - execution_price) * (quantity : ℚ)
  | .LONG => (execution_price - average_cost) * (quantity : ℚ)

/-- `apply_buy_to_position` from `src/app/virtual_trade/position.py` lines
86-125. `.error ()` is the `ValueError` raised when the accumulated quantity
would not be positive; field updates follow the source's statement order. -/
def apply_buy_to_position (position? : Option VirtualTradePosition)
    (quantity : ℤ) (price : ℚ) : Except Unit VirtualTradePosition :=
  let total_cost := price * (quantity : ℚ)
  match position? with
  | none =>
    .ok { side := .LONG,
          quantity := quantity,
          available_quantity := quantity,
          average_cost := price,
          market_price := some price,
          market_value := total_cost,
          unrealized_pnl := 0,
          realized_pnl := 0,
          status := .OPEN }
  | some position =>
    let total_quantity := position.quantity + quantity
    if total_quantity ≤ 0 then
      .error ()
    else
      let current_cost := position.average_cost * (position.quantity : ℚ)
      let p1 := { position with
                  quantity := total_quantity,
                  available_quantity := position.available_quantity + quantity,
                  average_cost := (current_cost + total_cost) / (total_quantity : ℚ),
                  market_price := some price }
      let p2 := { p1 with market_value := price * (p1.quantity : ℚ) }
      .ok { p2 with unrealized_pnl := calculate_unrealized p2, status := .OPEN }

/-- `apply_sell_to_position` from `src/app/virtual_trade/position.py` lines
128-150, with the in-place mutations threaded in the source's order. -/
def apply_sell_to_position (position : VirtualTradePosition) (quantity : ℤ)
    (price : ℚ) (realized_delta : ℚ) : VirtualTradePosition :=
  let p1 := { position with
              quantity := position.quantity - quantity,
              available_quantity := position.available_quantity - quantity,
              market_price := some price }
  let p2 := { p1 with market_value := price * (p1.quantity : ℚ) }
  let p3 := { p2 with
              unrealized_pnl := if 0 < p2.quantity then calculate_unrealized p2 else 0,
              realized_pnl := p2.realized_pnl + realized_delta }
  if p3.quantity ≤ 0 then
    { p3 with
      quantity := 0,
      available_quantity := 0,
      market_value := 0,
      unrealized_pnl := 0,
      status := .CLOSED }
  else
    { p3 with status := .OPEN }

/-- The fields of a `VirtualTradeOrder` row (`app/models/virtual_trade_order.py`)
that `place_buy_order`/`place_sell_order` write; identity, symbol and notes
fields are elided. -/
structure VirtualTradeOrder where
  side : OrderSide
  quantity : ℤ
  price : ℚ
  status : OrderStatus
  executed_quantity : ℤ
  average_price : ℚ
deriving DecidableEq, Repr

/-- The state touched by one settlement in `src/app/virtual_trade/order.py`:
the account row, the (account, symbol, LONG) position row the engine locks,
and the append-only order table restricted to that account and symbol. -/
structure EngineState where
  account : Option TradeAccount
  position : Option VirtualTradePosition
  orders : List VirtualTradeOrder
deriving DecidableEq, Repr

/-- Exceptions escaping `place_buy_order`/`place_sell_order`:
`ValueError` (from `_validate_quantity`/`_validate_price`), the
`apply_order_settlement` errors, the order-module errors, and the
`ValueError` from `apply_buy_to_position`. -/
inductive OrderError where
  | invalidInput
  | accountNotFound
  | insufficientBuyingPower
  | positionNotFound
  | insufficientPositionQuantity
  | valueError
deriving DecidableEq, Repr

/-- How `apply_order_settlement` exceptions propagate out of the order flow
(a `ValueError` raised there is the same exception class as the input
validation's). -/
def liftAccountError : AccountError → OrderError
  | .valueError => .valueError
  | .accountNotFound => .accountNotFound
  | .insufficientBuyingPower => .insufficientBuyingPower

/-- `place_buy_order` from `src/app/virtual_trade/order.py` lines 51-100.
Mutations are applied in the source's program order and an error returns the
state exactly as mutated so far (commit/rollback granularity is not modelled,
so the all-or-nothing property of C5 is the assertion that every raising path
occurs before the first mutation). -/
def place_buy_order (σ : EngineState) (quantity : ℤ) (price : ℚ) :
    EngineState × Option OrderError :=
  if quantity ≤ 0 then (σ, some .invalidInput)
  else if price ≤ 0 then (σ, some .invalidInput)
  else
    let cash_amount := price * (quantity : ℚ)
    match apply_order_settlement σ.account .BUY cash_amount 0 with
    | .error e => (σ, some (liftAccountError e))
    | .ok account =>
      let σ1 := { σ with account := some account }
      match apply_buy_to_position σ.position quantity price with
      | .error _ => (σ1, some .valueError)
      | .ok position =>
        ({ σ1 with
           position := some position,
           orders := σ1.orders ++
             [{ side := .BUY, quantity := quantity, price := price,
                status := .FILLED, executed_quantity := quantity,
                average_price := price }] }, none)

/-- `place_sell_order` from `src/app/virtual_trade/order.py` lines 103-163,
with the same state-threading conventions as `place_buy_order`. -/
def place_sell_order (σ : EngineState) (quantity : ℤ) (price : ℚ) :
    EngineState × Option OrderError :=
  if quantity ≤ 0 then (σ, some .invalidInput)
  else if price ≤ 0 then (σ, some .invalidInput)
  else
    match σ.position with
    | none => (σ, some .positionNotFound)
    | some position =>
      if position.quantity ≤ 0 then (σ, some .positionNotFound)
      else if position.available_quantity < quantity then
        (σ, some .insufficientPositionQuantity)
      else
        let realized_delta :=
          calculate_realized_pnl position.side position.average_cost price quantity
        let cash_amount := price * (quantity : ℚ)
        match apply_order_settlement σ.account .SELL cash_amount realized_delta with
        | .error e => (σ, some (liftAccountError e))
        | .ok account =>
          ({ account := some account,
             position := some (apply_sell_to_position position quantity price realized_delta),
             orders := σ.orders ++
               [{ side := .SELL, quantity := quantity, price := price,
                  status := .FILLED, executed_quantity := quantity,
                  average_price := price }] }, none)

/-- Iterated buy fills fed through `apply_buy_to_position`, each fill being a
(quantity, price) pair, as the engine applies successive buys to the same
position row. -/
def runBuyFills : Option VirtualTradePosition → List (ℤ × ℚ) →
    Except Unit (Option VirtualTradePosition)
  | pos?, [] => .ok pos?
  | pos?, fill :: rest =>
    match apply_buy_to_position pos? fill.1 fill.2 with
    | .error e => .error e
    | .ok position => runBuyFills (some position) rest

/-- Total share quantity of a list of (quantity, price) fills. -/
def fillsQty (fills : List (ℤ × ℚ)) : ℤ := (fills.map (fun f => f.1)).sum

/-- Total cash cost of a list of (quantity, price) fills. -/
def fillsCost (fills : List (ℤ × ℚ)) : ℚ :=
  (fills.map (fun f => f.2 * (f.1 : ℚ))).sum

/-- One settlement request as passed to `apply_order_settlement`. -/
structure SettlementRequest where
  side : OrderSide
  cash_amount : ℚ
  realized_pnl_delta : ℚ
deriving DecidableEq, Repr

/-- One settlement applied to an existing account; a raising settlement leaves
the row unchanged (the transaction is rolled back). -/
def settleStep (account : TradeAccount) (r : SettlementRequest) : TradeAccount :=
  match apply_order_settlement (some account) r.side r.cash_amount r.realized_pnl_delta with
  | .ok a => a
  | .error _ => account

/-- A sequence of settlements against one account row. -/
def runSettlements (account : TradeAccount) (reqs : List SettlementRequest) : TradeAccount :=
  reqs.foldl settleStep account

/-- One order placed through the settlement engine. -/
inductive OrderOp where
  | buy (quantity : ℤ) (price : ℚ)
  | sell (quantity : ℤ) (price : ℚ)
deriving DecidableEq, Repr

/-- The state after one `place_buy_order`/`place_sell_order` call; a rejected
order leaves the state unchanged (the transaction is rolled back). -/
def applyOrderOp (σ : EngineState) : OrderOp → EngineState
  | .buy quantity price => (place_buy_order σ quantity price).1
  | .sell quantity price => (place_sell_order σ quantity price).1

/-- A sequence of orders driven through the settlement engine. -/
def runOrderOps : EngineState → List OrderOp → EngineState
  | σ, [] => σ
  | σ, op :: rest => runOrderOps (applyOrderOp σ op) rest

/-- The position-row invariant of C10: whenever the engine state holds a
position row, its available_quantity equals its quantity. -/
def availEqQty (σ : EngineState) : Prop :=
  ∀ position, σ.position = some position →
    position.available_quantity = position.quantity

/-- Python `date.weekday()` on a proleptic-Gregorian ordinal day number
(`date.toordinal()`): ordinal 1 is 0001-01-01, a Monday, and
`weekday` is 0 for Monday through 6 for Sunday. -/
def weekday (d : ℤ) : ℤ := (d - 1) % 7

/-- The `current.weekday() < 5` test of `_iter_trading_days`
(`src/app/backtest/engine.py` line 153). -/
def isTradingDay (d : ℤ) : Bool := weekday d < 5

/-- The loop of `BacktestEngine._iter_trading_days`
(`src/app/backtest/engine.py` lines 145-155) from a current date `cur`:
while `cur ≤ e`, yield `cur` when its weekday is Monday-Friday, then step by
`iv` days. The source would loop forever on `iv ≤ 0`; the guard `0 < iv`
makes the embedding total and is vacuous in the claimed regime
`interval_days ≥ 1`. -/
def iterTradingDaysFrom (e iv cur : ℤ) : List ℤ :=
  if _h : cur ≤ e ∧ 0 < iv then
    (if isTradingDay cur then [cur] else []) ++ iterTradingDaysFrom e iv (cur + iv)
  else []
termination_by (e + 1 - cur).toNat
decreasing_by
  simp_wf
  omega

/-- `BacktestEngine._iter_trading_days`: the decision-date sequence from
`start_date` to `end_date` stepping `interval_days`. -/
def iter_trading_days (start_date end_date interval_days : ℤ) : List ℤ :=
  iterTradingDaysFrom end_date interval_days start_date

end AgentQuant

namespace AgentQuant

/-- C1: on a successful settlement, BUY decreases balance by `cash_amount`
leaving `realized_pnl` unchanged, SELL increases balance by `cash_amount` and
adds `realized_pnl_delta` to the accumulator, and in both cases
`buying_power` changes by exactly the same amount as `balance`. -/
theorem settlement_moves_cash_and_pnl (account : TradeAccount) (side : OrderSide)
    (cash_amount realized_pnl_delta : ℚ) (result : TradeAccount)
    (h : apply_order_settlement (some account) side cash_amount realized_pnl_delta
          = .ok result) :
    (side = .BUY →
      result.balance = account.balance - cash_amount ∧
      result.buying_power = account.buying_power - cash_amount ∧
      result.realized_pnl = account.realized_pnl) ∧
    (side = .SELL →
      result.balance = account.balance + cash_amount ∧
      result.buying_power = account.buying_power + cash_amount ∧
      result.realized_pnl = account.realized_pnl + realized_pnl_delta) ∧
    result.buying_power - account.buying_power = result.balance - account.balance := by
  unfold apply_order_settlement at h
  by_cases hc : cash_amount ≤ 0
  · simp [hc] at h
  · cases side with
    | BUY =>
      by_cases hb : account.balance < cash_amount ∨ account.buying_power < cash_amount
      · simp [hc, hb] at h
      · simp [hc, hb] at h
        subst h
        refine ⟨fun _ => ⟨rfl, rfl, rfl⟩, fun hs => absurd hs (by decide), by ring⟩
    | SELL =>
      simp [hc] at h
      subst h
      refine ⟨fun hb => absurd hb (by decide), fun _ => ⟨rfl, rfl, rfl⟩, by ring⟩

/-- Witness for `settlement_moves_cash_and_pnl` at a concrete BUY. -/
theorem settlement_moves_cash_and_pnl_witness :
    (100 : ℚ) - 30 = 70 ∧
    ((AgentQuant.OrderSide.BUY = .BUY →
        (70 : ℚ) = 100 - 30 ∧ (50 : ℚ) = 80 - 30 ∧ (5 : ℚ) = 5) ∧
      (AgentQuant.OrderSide.BUY = .SELL →
        (70 : ℚ) = 100 + 30 ∧ (50 : ℚ) = 80 + 30 ∧ (5 : ℚ) = 5 + 2) ∧
      (50 : ℚ) - 80 = 70 - 100) := by
  refine ⟨by norm_num, ?_⟩
  have h := settlement_moves_cash_and_pnl
    { balance := 100, buying_power := 80, realized_pnl := 5 } .BUY 30 2
    { balance := 70, buying_power := 50, realized_pnl := 5 }
    (by norm_num [apply_order_settlement])
  exact h

/-- C2: with an existing account and positive `cash_amount`, a BUY settlement
raises `InsufficientBuyingPower` iff `cash_amount` exceeds the balance or the
buying power; in particular equality on both succeeds. -/
theorem buy_fails_iff_insufficient (account : TradeAccount)
    (cash_amount realized_pnl_delta : ℚ) (hpos : 0 < cash_amount) :
    (apply_order_settlement (some account) .BUY cash_amount realized_pnl_delta
        = .error .insufficientBuyingPower ↔
      account.balance < cash_amount ∨ account.buying_power < cash_amount) ∧
    (account.balance = cash_amount → account.buying_power = cash_amount →
      apply_order_settlement (some account) .BUY cash_amount realized_pnl_delta
        = .ok { account with
                balance := account.balance - cash_amount,
                buying_power := account.buying_power - cash_amount }) := by
  have hc : ¬ cash_amount ≤ 0 := not_le.mpr hpos
  constructor
  · constructor
    · intro h
      by_contra hb
      simp [apply_order_settlement, hc, hb] at h
    · intro hb
      simp [apply_order_settlement, hc, hb]
  · intro h1 h2
    have hb : ¬ (account.balance < cash_amount ∨ account.buying_power < cash_amount) := by
      simp [h1, h2]
    simp [apply_order_settlement, hc, hb]

/-- Witness for `buy_fails_iff_insufficient`: a buy of exactly the whole
balance and buying power succeeds and zeroes both. -/
theorem buy_fails_iff_insufficient_witness :
    apply_order_settlement (some { balance := 50, buying_power := 50, realized_pnl := 3 })
        .BUY 50 0
      = .ok { balance := 0, buying_power := 0, realized_pnl := 3 } := by
  have h := (buy_fails_iff_insufficient
    { balance := 50, buying_power := 50, realized_pnl := 3 } 50 0 (by norm_num)).2 rfl rfl
  norm_num at h
  exact h

/-- A buy on an existing position raises `ValueError` exactly when the
accumulated quantity would not be positive. -/
theorem apply_buy_some_error_iff (position : VirtualTradePosition)
    (quantity : ℤ) (price : ℚ) :
    apply_buy_to_position (some position) quantity price = .error () ↔
      position.quantity + quantity ≤ 0 := by
  unfold apply_buy_to_position
  by_cases ht : position.quantity + quantity ≤ 0
  · simp [ht]
  · simp [ht]

/-- Field-level description of a successful buy on an existing position. -/
theorem apply_buy_some_fields (position pos' : VirtualTradePosition)
    (quantity : ℤ) (price : ℚ)
    (h : apply_buy_to_position (some position) quantity price = .ok pos') :
    0 < position.quantity + quantity ∧
    pos'.side = position.side ∧
    pos'.quantity = position.quantity + quantity ∧
    pos'.available_quantity = position.available_quantity + quantity ∧
    pos'.average_cost =
      (position.average_cost * (position.quantity : ℚ) + price * (quantity : ℚ)) /
        ((position.quantity : ℚ) + (quantity : ℚ)) ∧
    pos'.market_price = some price ∧
    pos'.market_value = price * ((position.quantity : ℚ) + (quantity : ℚ)) ∧
    pos'.realized_pnl = position.realized_pnl ∧
    pos'.status = .OPEN := by
  unfold apply_buy_to_position at h
  by_cases ht : position.quantity + quantity ≤ 0
  · simp [ht] at h
  · simp [ht] at h
    subst h
    refine ⟨by omega, rfl, rfl, rfl, ?_, rfl, ?_, rfl, rfl⟩
    · push_cast
      ring_nf
    · push_cast
      ring_nf

/-- A buy with no existing position creates the row of
`apply_buy_to_position`'s creation branch. -/
theorem apply_buy_none_eq (quantity : ℤ) (price : ℚ) :
    apply_buy_to_position none quantity price = .ok
      { side := .LONG, quantity := quantity, available_quantity := quantity,
        average_cost := price, market_price := some price,
        market_value := price * (quantity : ℚ), unrealized_pnl := 0,
        realized_pnl := 0, status := .OPEN } := rfl

/-- Unfolding lemma for `runBuyFills` on a cons cell. -/
theorem runBuyFills_cons (pos? : Option VirtualTradePosition) (fill : ℤ × ℚ)
    (rest : List (ℤ × ℚ)) :
    runBuyFills pos? (fill :: rest) =
      match apply_buy_to_position pos? fill.1 fill.2 with
      | .error e => .error e
      | .ok position => runBuyFills (some position) rest := rfl

/-- Running buy fills with positive quantities preserves the weighted-cost
accounting identity `average_cost × quantity = total cost so far`. -/
theorem runBuyFills_weighted (fills : List (ℤ × ℚ)) :
    ∀ pos0 pos : VirtualTradePosition,
      (∀ f ∈ fills, 0 < f.1) → 0 ≤ pos0.quantity →
      runBuyFills (some pos0) fills = .ok (some pos) →
      pos.quantity = pos0.quantity + fillsQty fills ∧
      pos.average_cost * (pos.quantity : ℚ) =
        pos0.average_cost * (pos0.quantity : ℚ) + fillsCost fills := by
  induction fills with
  | nil =>
    intro pos0 pos _ _ h
    simp [runBuyFills] at h
    subst h
    simp [fillsQty, fillsCost]
  | cons f rest ih =>
    intro pos0 pos hf h0 h
    have hfq : 0 < f.1 := hf f (List.mem_cons_self f rest)
    rw [runBuyFills_cons] at h
    split at h
    · exact absurd h (by simp)
    · rename_i p1 hb
      obtain ⟨hpos, _, hqty, _, havg, _, _, _, _⟩ :=
        apply_buy_some_fields pos0 p1 f.1 f.2 hb
      have h1 : 0 ≤ p1.quantity := by omega
      obtain ⟨ihq, ihc⟩ := ih p1 pos (fun g hg => hf g (List.mem_cons_of_mem f hg)) h1 h
      constructor
      · rw [ihq, hqty]
        simp [fillsQty]
        ring
      · rw [ihc, havg, hqty]
        have hne : ((pos0.quantity : ℚ) + (f.1 : ℚ)) ≠ 0 := by
          have : (0 : ℚ) < (pos0.quantity : ℚ) + (f.1 : ℚ) := by
            exact_mod_cast by omega
          exact ne_of_gt this
        rw [div_mul_eq_mul_div]
        rw [show ((pos0.quantity + f.1 : ℤ) : ℚ) = ((pos0.quantity : ℚ) + (f.1 : ℚ)) by push_cast; ring]
        rw [mul_div_assoc, div_self hne, mul_one]
        simp [fillsCost]
        ring

/-- A nonempty list of positive-quantity fills has positive total quantity. -/
theorem fillsQty_pos (fills : List (ℤ × ℚ)) (hf : ∀ f ∈ fills, 0 < f.1)
    (hne : fills ≠ []) : 0 < fillsQty fills := by
  unfold fillsQty
  apply List.sum_pos
  · intro x hx
    obtain ⟨f, hfm, rfl⟩ := List.mem_map.mp hx
    exact hf f hfm
  · simpa using hne

/-- Buy fills with positive quantities starting from no position produce the
quantity-weighted mean of the fill prices as the average cost. -/
theorem runBuyFills_mean (fills : List (ℤ × ℚ)) (pos : VirtualTradePosition)
    (hf : ∀ f ∈ fills, 0 < f.1)
    (hrun : runBuyFills none fills = .ok (some pos)) :
    pos.quantity = fillsQty fills ∧
    pos.average_cost = fillsCost fills / (fillsQty fills : ℚ) := by
  cases fills with
  | nil => simp [runBuyFills] at hrun
  | cons f rest =>
    rw [runBuyFills_cons] at hrun
    split at hrun
    · rename_i e heq
      rw [apply_buy_none_eq] at heq
      simp at heq
    · rename_i p1 heq
      rw [apply_buy_none_eq] at heq
      simp only [Except.ok.injEq] at heq
      subst heq
      obtain ⟨ihq, ihc⟩ := runBuyFills_weighted rest _ pos
        (fun g hg => hf g (List.mem_cons_of_mem f hg))
        (by simpa using le_of_lt (hf f (List.mem_cons_self f rest)))
        hrun
      simp only at ihq ihc
      have hq : pos.quantity = fillsQty (f :: rest) := by
        rw [ihq]
        simp [fillsQty]
      have hc : pos.average_cost * (pos.quantity : ℚ) = fillsCost (f :: rest) := by
        rw [ihc]
        simp [fillsCost]
      refine ⟨hq, ?_⟩
      have hqpos : 0 < fillsQty (f :: rest) :=
        fillsQty_pos _ hf (by simp)
      have hne : ((fillsQty (f :: rest) : ℤ) : ℚ) ≠ 0 := by
        exact_mod_cast ne_of_gt hqpos
      rw [eq_div_iff hne, ← hq]
      exact hc

/-- C3: a buy on an existing position yields the weighted-average cost
`(old_avg×old_qty + price×qty)/(old_qty+qty)`; a creating buy sets
average_cost to the fill price; consequently any sequence of positive buy
fills from no position yields average_cost = quantity-weighted mean of fill
prices (10@100 then 10@120 gives 110 over 20); every buy sets market_price to
the fill price, market_value to price × new quantity, and status to OPEN. -/
theorem buy_weighted_average :
    (∀ (position pos' : VirtualTradePosition) (quantity : ℤ) (price : ℚ),
      apply_buy_to_position (some position) quantity price = .ok pos' →
      pos'.average_cost =
        (position.average_cost * (position.quantity : ℚ) + price * (quantity : ℚ)) /
          ((position.quantity : ℚ) + (quantity : ℚ)) ∧
      pos'.quantity = position.quantity + quantity ∧
      pos'.market_price = some price ∧
      pos'.market_value = price * ((position.quantity : ℚ) + (quantity : ℚ)) ∧
      pos'.status = .OPEN) ∧
    (∀ (pos' : VirtualTradePosition) (quantity : ℤ) (price : ℚ),
      apply_buy_to_position none quantity price = .ok pos' →
      pos'.average_cost = price ∧
      pos'.quantity = quantity ∧
      pos'.market_price = some price ∧
      pos'.market_value = price * (quantity : ℚ) ∧
      pos'.status = .OPEN) ∧
    (∀ (fills : List (ℤ × ℚ)) (pos : VirtualTradePosition),
      (∀ f ∈ fills, 0 < f.1) →
      runBuyFills none fills = .ok (some pos) →
      pos.quantity = fillsQty fills ∧
      pos.average_cost = fillsCost fills / (fillsQty fills : ℚ)) ∧
    (∀ pos : VirtualTradePosition,
      runBuyFills none [(10, 100), (10, 120)] = .ok (some pos) →
      pos.average_cost = 110 ∧ pos.quantity = 20) := by
  refine ⟨?_, ?_, ?_, ?_⟩
  · intro position pos' quantity price h
    obtain ⟨_, _, hq, _, ha, hmp, hmv, _, hs⟩ :=
      apply_buy_some_fields position pos' quantity price h
    exact ⟨ha, hq, hmp, hmv, hs⟩
  · intro pos' quantity price h
    rw [apply_buy_none_eq] at h
    simp only [Except.ok.injEq] at h
    subst h
    exact ⟨rfl, rfl, rfl, rfl, rfl⟩
  · intro fills pos hf hrun
    exact runBuyFills_mean fills pos hf hrun
  · intro pos hrun
    obtain ⟨hq, ha⟩ := runBuyFills_mean _ pos (by norm_num) hrun
    refine ⟨?_, ?_⟩
    · rw [ha]
      norm_num [fillsCost, fillsQty]
    · rw [hq]
      norm_num [fillsQty]

/-- Witness for `buy_weighted_average`: buying 10@100 then 10@120 produces a
20-share position at average cost 110. -/
theorem buy_weighted_average_witness :
    runBuyFills none [(10, 100), (10, 120)]
      = .ok (some { side := .LONG, quantity := 20, available_quantity := 20,
                    average_cost := 110, market_price := some 120,
                    market_value := 2400, unrealized_pnl := 200,
                    realized_pnl := 0, status := .OPEN }) ∧
    (110 : ℚ) = 110 ∧ (20 : ℤ) = 20 := by
  have hrun : runBuyFills none [(10, 100), (10, 120)]
      = .ok (some { side := .LONG, quantity := 20, available_quantity := 20,
                    average_cost := 110, market_price := some 120,
                    market_value := 2400, unrealized_pnl := 200,
                    realized_pnl := 0, status := .OPEN }) := by
    norm_num [runBuyFills, apply_buy_to_position, calculate_unrealized]
  have h := (buy_weighted_average.2.2.2) _ hrun
  exact ⟨hrun, h.1, h.2⟩

/-- Field-level description of a sell that drives the quantity to (or below)
zero: the close branch of `apply_sell_to_position`. -/
theorem apply_sell_close_fields (position : VirtualTradePosition) (quantity : ℤ)
    (price realized_delta : ℚ) (h : position.quantity - quantity ≤ 0) :
    (apply_sell_to_position position quantity price realized_delta).quantity = 0 ∧
    (apply_sell_to_position position quantity price realized_delta).available_quantity = 0 ∧
    (apply_sell_to_position position quantity price realized_delta).market_value = 0 ∧
    (apply_sell_to_position position quantity price realized_delta).unrealized_pnl = 0 ∧
    (apply_sell_to_position position quantity price realized_delta).status = .CLOSED ∧
    (apply_sell_to_position position quantity price realized_delta).market_price = some price ∧
    (apply_sell_to_position position quantity price realized_delta).average_cost
      = position.average_cost ∧
    (apply_sell_to_position position quantity price realized_delta).realized_pnl
      = position.realized_pnl + realized_delta ∧
    (apply_sell_to_position position quantity price realized_delta).side = position.side := by
  simp [apply_sell_to_position, h]

/-- Field-level description of a sell that leaves a positive remaining
quantity: the stay-open branch of `apply_sell_to_position`. -/
theorem apply_sell_partial_fields (position : VirtualTradePosition) (quantity : ℤ)
    (price realized_delta : ℚ) (h : 0 < position.quantity - quantity) :
    (apply_sell_to_position position quantity price realized_delta).quantity
      = position.quantity - quantity ∧
    (apply_sell_to_position position quantity price realized_delta).available_quantity
      = position.available_quantity - quantity ∧
    (apply_sell_to_position position quantity price realized_delta).market_price
      = some price ∧
    (apply_sell_to_position position quantity price realized_delta).market_value
      = price * ((position.quantity : ℚ) - (quantity : ℚ)) ∧
    (apply_sell_to_position position quantity price realized_delta).status = .OPEN ∧
    (apply_sell_to_position position quantity price realized_delta).average_cost
      = position.average_cost ∧
    (apply_sell_to_position position quantity price realized_delta).realized_pnl
      = position.realized_pnl + realized_delta ∧
    (apply_sell_to_position position quantity price realized_delta).side
      = position.side ∧
    (position.side = .LONG →
      (apply_sell_to_position position quantity price realized_delta).unrealized_pnl
        = (price - position.average_cost) * ((position.quantity : ℚ) - (quantity : ℚ))) := by
  have h' : ¬ position.quantity - quantity ≤ 0 := by omega
  refine ⟨?_, ?_, ?_, ?_, ?_, ?_, ?_, ?_, ?_⟩
  · simp [apply_sell_to_position, h']
  · simp [apply_sell_to_position, h']
  · simp [apply_sell_to_position, h']
  · simp [apply_sell_to_position, h']
  · simp [apply_sell_to_position, h']
  · simp [apply_sell_to_position, h']
  · simp [apply_sell_to_position, h']
  · simp [apply_sell_to_position, h']
  · intro hs
    simp [apply_sell_to_position, h', calculate_unrealized, hs, h]

/-- C4: selling a LONG position's entire quantity (with
available_quantity = quantity) closes it with quantity, available_quantity,
market_value and unrealized_pnl all zero and accumulates
`(price − average_cost) × quantity` of realized P&L; a partial sell decreases
quantity and available_quantity by the sold amount, recomputes market_value
and unrealized_pnl from the fill price, and stays OPEN. -/
theorem sell_updates_position (position : VirtualTradePosition) (quantity : ℤ)
    (price : ℚ) (hside : position.side = .LONG) :
    (position.available_quantity = position.quantity → quantity = position.quantity →
      (apply_sell_to_position position quantity price
          (calculate_realized_pnl position.side position.average_cost price quantity)).quantity
        = 0 ∧
      (apply_sell_to_position position quantity price
          (calculate_realized_pnl position.side position.average_cost price quantity)).available_quantity
        = 0 ∧
      (apply_sell_to_position position quantity price
          (calculate_realized_pnl position.side position.average_cost price quantity)).market_value
        = 0 ∧
      (apply_sell_to_position position quantity price
          (calculate_realized_pnl position.side position.average_cost price quantity)).unrealized_pnl
        = 0 ∧
      (apply_sell_to_position position quantity price
          (calculate_realized_pnl position.side position.average_cost price quantity)).status
        = .CLOSED ∧
      (apply_sell_to_position position quantity price
          (calculate_realized_pnl position.side position.average_cost price quantity)).realized_pnl
        = position.realized_pnl + (price - position.average_cost) * (quantity : ℚ)) ∧
    (∀ realized_delta : ℚ, 0 < position.quantity - quantity →
      (apply_sell_to_position position quantity price realized_delta).quantity
        = position.quantity - quantity ∧
      (apply_sell_to_position position quantity price realized_delta).available_quantity
        = position.available_quantity - quantity ∧
      (apply_sell_to_position position quantity price realized_delta).market_value
        = price * ((position.quantity : ℚ) - (quantity : ℚ)) ∧
      (apply_sell_to_position position quantity price realized_delta).unrealized_pnl
        = (price - position.average_cost) * ((position.quantity : ℚ) - (quantity : ℚ)) ∧
      (apply_sell_to_position position quantity price realized_delta).status = .OPEN ∧
      (apply_sell_to_position position quantity price realized_delta).realized_pnl
        = position.realized_pnl + realized_delta) := by
  constructor
  · intro _ hq
    have hle : position.quantity - quantity ≤ 0 := by omega
    obtain ⟨c1, c2, c3, c4, c5, _, _, c8, _⟩ :=
      apply_sell_close_fields position quantity price
        (calculate_realized_pnl position.side position.average_cost price quantity) hle
    refine ⟨c1, c2, c3, c4, c5, ?_⟩
    rw [c8, hside]
    simp [calculate_realized_pnl]
  · intro realized_delta hrem
    obtain ⟨p1, p2, _, p4, p5, _, p7, _, p9⟩ :=
      apply_sell_partial_fields position quantity price realized_delta hrem
    exact ⟨p1, p2, p4, p9 hside, p5, p7⟩

/-- Witness for `sell_updates_position`: from 10 shares at cost 100, a full
sell at 150 closes with +500 realized; a partial 4-share sell at 150 leaves 6
shares OPEN. -/
theorem sell_updates_position_witness :
    ((apply_sell_to_position
        { side := .LONG, quantity := 10, available_quantity := 10, average_cost := 100,
          market_price := some 100, market_value := 1000, unrealized_pnl := 0,
          realized_pnl := 0, status := .OPEN } 10 150
        (calculate_realized_pnl .LONG 100 150 10)).status = .CLOSED ∧
      (apply_sell_to_position
        { side := .LONG, quantity := 10, available_quantity := 10, average_cost := 100,
          market_price := some 100, market_value := 1000, unrealized_pnl := 0,
          realized_pnl := 0, status := .OPEN } 10 150
        (calculate_realized_pnl .LONG 100 150 10)).realized_pnl = 500) ∧
    ((apply_sell_to_position
        { side := .LONG, quantity := 10, available_quantity := 10, average_cost := 100,
          market_price := some 100, market_value := 1000, unrealized_pnl := 0,
          realized_pnl := 0, status := .OPEN } 4 150 7).quantity = 6 ∧
      (apply_sell_to_position
        { side := .LONG, quantity := 10, available_quantity := 10, average_cost := 100,
          market_price := some 100, market_value := 1000, unrealized_pnl := 0,
          realized_pnl := 0, status := .OPEN } 4 150 7).status = .OPEN) := by
  have hfull := (sell_updates_position
    { side := .LONG, quantity := 10, available_quantity := 10, average_cost := 100,
      market_price := some 100, market_value := 1000, unrealized_pnl := 0,
      realized_pnl := 0, status := .OPEN } 10 150 rfl).1 rfl rfl
  have hpart := (sell_updates_position
    { side := .LONG, quantity := 10, available_quantity := 10, average_cost := 100,
      market_price := some 100, market_value := 1000, unrealized_pnl := 0,
      realized_pnl := 0, status := .OPEN } 4 150 rfl).2 7 (by norm_num)
  refine ⟨⟨hfull.2.2.2.2.1, ?_⟩, ⟨?_, hpart.2.2.2.2.1⟩⟩
  · rw [hfull.2.2.2.2.2]
    norm_num
  · rw [hpart.1]
    norm_num

/-- C7 counterexample: close a 10-share position bought at 100 by selling all
10 at 120 (average_cost stays 100, stale), then buy 5 at 120 — the reopened
position's average_cost is 120, exactly the new fill price, not the stale
cost, because the stale cost is weighted by the closed position's zero
quantity. -/
theorem reopen_average_cost_counterexample :
    (apply_sell_to_position
        { side := .LONG, quantity := 10, available_quantity := 10, average_cost := 100,
          market_price := some 100, market_value := 1000, unrealized_pnl := 0,
          realized_pnl := 0, status := .OPEN } 10 120
        (calculate_realized_pnl .LONG 100 120 10)).average_cost = 100 ∧
    (apply_sell_to_position
        { side := .LONG, quantity := 10, available_quantity := 10, average_cost := 100,
          market_price := some 100, market_value := 1000, unrealized_pnl := 0,
          realized_pnl := 0, status := .OPEN } 10 120
        (calculate_realized_pnl .LONG 100 120 10)).status = .CLOSED ∧
    apply_buy_to_position
        (some (apply_sell_to_position
          { side := .LONG, quantity := 10, available_quantity := 10, average_cost := 100,
            market_price := some 100, market_value := 1000, unrealized_pnl := 0,
            realized_pnl := 0, status := .OPEN } 10 120
          (calculate_realized_pnl .LONG 100 120 10))) 5 120
      = .ok { side := .LONG, quantity := 5, available_quantity := 5, average_cost := 120,
              market_price := some 120, market_value := 600, unrealized_pnl := 0,
              realized_pnl := 200, status := .OPEN } ∧
    (120 : ℚ) ≠ (100 : ℚ) := by
  norm_num [apply_sell_to_position, apply_buy_to_position, calculate_realized_pnl,
    calculate_unrealized]

/-- C7 (amended): a full close retains the stale pre-close average_cost on the
CLOSED row, but a reopening buy weights that stale cost by the closed
position's zero quantity, so the reopened position's average_cost equals the
new fill price. -/
theorem reopen_buy_uses_fill_price (position : VirtualTradePosition) :
    (∀ (quantity : ℤ) (price realized_delta : ℚ),
      (apply_sell_to_position position quantity price realized_delta).average_cost
        = position.average_cost) ∧
    (∀ (quantity : ℤ) (price : ℚ) (pos' : VirtualTradePosition),
      position.quantity = 0 →
      apply_buy_to_position (some position) quantity price = .ok pos' →
      pos'.average_cost = price) := by
  constructor
  · intro quantity price realized_delta
    by_cases h : position.quantity - quantity ≤ 0
    · exact (apply_sell_close_fields position quantity price realized_delta h).2.2.2.2.2.2.1
    · exact (apply_sell_partial_fields position quantity price realized_delta
        (by omega)).2.2.2.2.2.1
  · intro quantity price pos' hq0 h
    obtain ⟨hpos, _, _, _, havg, _, _, _, _⟩ :=
      apply_buy_some_fields position pos' quantity price h
    rw [havg, hq0]
    have hqne : ((quantity : ℤ) : ℚ) ≠ 0 := by
      have : (0 : ℤ) < quantity := by omega
      exact_mod_cast ne_of_gt this
    push_cast
    rw [zero_add, mul_comm position.average_cost, zero_mul, zero_add]
    exact mul_div_cancel_right₀ price hqne

/-- Witness for `reopen_buy_uses_fill_price` at a concrete closed position
with stale average cost 37: a reopening 5-share buy at 90 yields
average_cost 90. -/
theorem reopen_buy_uses_fill_price_witness :
    (apply_sell_to_position
        { side := .LONG, quantity := 0, available_quantity := 0, average_cost := 37,
          market_price := some 80, market_value := 0, unrealized_pnl := 0,
          realized_pnl := 120, status := .CLOSED } 1 50 0).average_cost = 37 ∧
    ({ side := .LONG, quantity := 5, available_quantity := 5, average_cost := 90,
       market_price := some 90, market_value := 450, unrealized_pnl := 0,
       realized_pnl := 120, status := .OPEN } : VirtualTradePosition).average_cost = 90 := by
  have h := reopen_buy_uses_fill_price
    { side := .LONG, quantity := 0, available_quantity := 0, average_cost := 37,
      market_price := some 80, market_value := 0, unrealized_pnl := 0,
      realized_pnl := 120, status := .CLOSED }
  refine ⟨h.1 1 50 0, h.2 5 90 _ rfl ?_⟩
  norm_num [apply_buy_to_position, calculate_unrealized]

/-- C8 counterexample: fully selling 4 shares at 80 closes the position but
leaves market_price at the fill price 80, not zero. -/
theorem close_market_price_counterexample :
    (apply_sell_to_position
        { side := .LONG, quantity := 4, available_quantity := 4, average_cost := 50,
          market_price := some 50, market_value := 200, unrealized_pnl := 0,
          realized_pnl := 0, status := .OPEN } 4 80 120).status = .CLOSED ∧
    (apply_sell_to_position
        { side := .LONG, quantity := 4, available_quantity := 4, average_cost := 50,
          market_price := some 50, market_value := 200, unrealized_pnl := 0,
          realized_pnl := 0, status := .OPEN } 4 80 120).market_price = some 80 ∧
    some (80 : ℚ) ≠ some (0 : ℚ) := by
  norm_num [apply_sell_to_position]

/-- C8 (amended): a sell driving quantity to zero resets quantity,
available_quantity, market_value and unrealized_pnl to zero and sets status
CLOSED, but the stored market_price is set to the fill price, not reset to
zero. -/
theorem close_resets_values_not_market_price (position : VirtualTradePosition)
    (quantity : ℤ) (price realized_delta : ℚ) (h : position.quantity ≤ quantity) :
    (apply_sell_to_position position quantity price realized_delta).quantity = 0 ∧
    (apply_sell_to_position position quantity price realized_delta).available_quantity = 0 ∧
    (apply_sell_to_position position quantity price realized_delta).market_value = 0 ∧
    (apply_sell_to_position position quantity price realized_delta).unrealized_pnl = 0 ∧
    (apply_sell_to_position position quantity price realized_delta).status = .CLOSED ∧
    (apply_sell_to_position position quantity price realized_delta).market_price
      = some price := by
  obtain ⟨c1, c2, c3, c4, c5, c6, _, _, _⟩ :=
    apply_sell_close_fields position quantity price realized_delta (by omega)
  exact ⟨c1, c2, c3, c4, c5, c6⟩

/-- Witness for `close_resets_values_not_market_price` at a concrete full
sell of 3 shares at price 25. -/
theorem close_resets_values_not_market_price_witness :
    (apply_sell_to_position
        { side := .LONG, quantity := 3, available_quantity := 3, average_cost := 20,
          market_price := some 20, market_value := 60, unrealized_pnl := 0,
          realized_pnl := 0, status := .OPEN } 3 25 15).market_price = some 25 ∧
    (apply_sell_to_position
        { side := .LONG, quantity := 3, available_quantity := 3, average_cost := 20,
          market_price := some 20, market_value := 60, unrealized_pnl := 0,
          realized_pnl := 0, status := .OPEN } 3 25 15).status = .CLOSED := by
  have h := close_resets_values_not_market_price
    { side := .LONG, quantity := 3, available_quantity := 3, average_cost := 20,
      market_price := some 20, market_value := 60, unrealized_pnl := 0,
      realized_pnl := 0, status := .OPEN } 3 25 15 (by norm_num)
  exact ⟨h.2.2.2.2.2, h.2.2.2.2.1⟩

/-- Every raising path of `place_buy_order` returns the input state; rows
with non-negative quantity (the database constrains `quantity ≥ 0`) never
reach the buy path's late `ValueError`. -/
theorem place_buy_order_fail_or_ok (σ : EngineState) (quantity : ℤ) (price : ℚ)
    (hq : ∀ position, σ.position = some position → 0 ≤ position.quantity) :
    (place_buy_order σ quantity price).1 = σ ∨
    (place_buy_order σ quantity price).2 = none := by
  by_cases h1 : quantity ≤ 0
  · left
    simp [place_buy_order, h1]
  · by_cases h2 : price ≤ 0
    · left
      simp [place_buy_order, h1, h2]
    · cases hs : apply_order_settlement σ.account .BUY (price * (quantity : ℚ)) 0 with
      | error e =>
        left
        simp [place_buy_order, h1, h2, hs]
      | ok account =>
        cases hb : apply_buy_to_position σ.position quantity price with
        | error u =>
          cases hσp : σ.position with
          | none =>
            rw [hσp, apply_buy_none_eq] at hb
            exact absurd hb (by simp)
          | some pos =>
            rw [hσp] at hb
            cases u
            have hle := (apply_buy_some_error_iff pos quantity price).mp hb
            have h0 := hq pos hσp
            omega
        | ok position =>
          right
          simp [place_buy_order, h1, h2, hs, hb]

/-- Every raising path of `place_sell_order` returns the input state. -/
theorem place_sell_order_fail_or_ok (σ : EngineState) (quantity : ℤ) (price : ℚ) :
    (place_sell_order σ quantity price).1 = σ ∨
    (place_sell_order σ quantity price).2 = none := by
  by_cases h1 : quantity ≤ 0
  · left
    simp [place_sell_order, h1]
  · by_cases h2 : price ≤ 0
    · left
      simp [place_sell_order, h1, h2]
    · cases hσp : σ.position with
      | none =>
        left
        simp [place_sell_order, h1, h2, hσp]
      | some pos =>
        by_cases h3 : pos.quantity ≤ 0
        · left
          simp [place_sell_order, h1, h2, hσp, h3]
        · by_cases h4 : pos.available_quantity < quantity
          · left
            simp [place_sell_order, h1, h2, hσp, h3, h4]
          · cases hs : apply_order_settlement σ.account .SELL (price * (quantity : ℚ))
              (calculate_realized_pnl pos.side pos.average_cost price quantity) with
            | error e =>
              left
              simp [place_sell_order, h1, h2, hσp, h3, h4, hs]
            | ok account =>
              right
              simp [place_sell_order, h1, h2, hσp, h3, h4, hs]

/-- C5: any failing `place_buy_order` or `place_sell_order` call (non-positive
quantity or price, missing/empty position, insufficient available quantity,
missing account, insufficient balance or buying power) leaves the account,
the position and the order list exactly as they were: no mutation precedes
the raise. -/
theorem failed_order_leaves_state_unchanged (σ : EngineState) (quantity : ℤ)
    (price : ℚ)
    (hq : ∀ position, σ.position = some position → 0 ≤ position.quantity) :
    (∀ e : OrderError, (place_buy_order σ quantity price).2 = some e →
      (place_buy_order σ quantity price).1 = σ) ∧
    (∀ e : OrderError, (place_sell_order σ quantity price).2 = some e →
      (place_sell_order σ quantity price).1 = σ) := by
  constructor
  · intro e he
    rcases place_buy_order_fail_or_ok σ quantity price hq with h | h
    · exact h
    · rw [he] at h
      cases h
  · intro e he
    rcases place_sell_order_fail_or_ok σ quantity price with h | h
    · exact h
    · rw [he] at h
      cases h

/-- Witness for `failed_order_leaves_state_unchanged`: with 10 of cash, no
position and no orders, a 5-share buy at 100 (insufficient buying power) and
a 5-share sell at 100 (no position) both leave the state untouched. -/
theorem failed_order_leaves_state_unchanged_witness :
    (place_buy_order
        { account := some { balance := 10, buying_power := 10, realized_pnl := 0 },
          position := none, orders := [] } 5 100).1
      = { account := some { balance := 10, buying_power := 10, realized_pnl := 0 },
          position := none, orders := [] } ∧
    (place_sell_order
        { account := some { balance := 10, buying_power := 10, realized_pnl := 0 },
          position := none, orders := [] } 5 100).1
      = { account := some { balance := 10, buying_power := 10, realized_pnl := 0 },
          position := none, orders := [] } := by
  have h := failed_order_leaves_state_unchanged
    { account := some { balance := 10, buying_power := 10, realized_pnl := 0 },
      position := none, orders := [] } 5 100
    (by intro p hp; exact absurd hp (by simp))
  refine ⟨h.1 .insufficientBuyingPower ?_, h.2 .positionNotFound ?_⟩
  · norm_num [place_buy_order, apply_order_settlement, liftAccountError]
  · norm_num [place_sell_order]

/-- One settlement keeps a non-negative balance and buying power
non-negative. -/
theorem settleStep_nonneg (account : TradeAccount) (r : SettlementRequest)
    (h1 : 0 ≤ account.balance) (h2 : 0 ≤ account.buying_power) :
    0 ≤ (settleStep account r).balance ∧ 0 ≤ (settleStep account r).buying_power := by
  unfold settleStep apply_order_settlement
  by_cases hc : r.cash_amount ≤ 0
  · simpa [hc] using ⟨h1, h2⟩
  · cases hside : r.side with
    | BUY =>
      by_cases hb : account.balance < r.cash_amount ∨ account.buying_power < r.cash_amount
      · simpa [hc, hside, hb] using ⟨h1, h2⟩
      · simp [hc, hside, hb]
        push_neg at hb
        constructor <;> linarith [hb.1, hb.2]
    | SELL =>
      simp [hc, hside]
      constructor <;> linarith [not_le.mp hc]

/-- A whole sequence of settlements keeps balance and buying power
non-negative. -/
theorem runSettlements_nonneg (reqs : List SettlementRequest) :
    ∀ account : TradeAccount, 0 ≤ account.balance → 0 ≤ account.buying_power →
      0 ≤ (runSettlements account reqs).balance ∧
      0 ≤ (runSettlements account reqs).buying_power := by
  induction reqs with
  | nil =>
    intro a h1 h2
    simpa [runSettlements] using ⟨h1, h2⟩
  | cons r rest ih =>
    intro a h1 h2
    have hstep := settleStep_nonneg a r h1 h2
    simpa [runSettlements, List.foldl_cons] using ih (settleStep a r) hstep.1 hstep.2

/-- C6: starting from non-negative balance and buying power, any sequence of
settlements (each request with positive cash_amount) keeps both non-negative,
and every successful settlement moves buying power by the same signed amount
as balance. -/
theorem settlements_keep_cash_nonneg (account : TradeAccount)
    (reqs : List SettlementRequest)
    (h1 : 0 ≤ account.balance) (h2 : 0 ≤ account.buying_power)
    (_hp : ∀ r ∈ reqs, 0 < r.cash_amount) :
    (0 ≤ (runSettlements account reqs).balance ∧
      0 ≤ (runSettlements account reqs).buying_power) ∧
    (∀ (a : TradeAccount) (side : OrderSide) (cash_amount realized_pnl_delta : ℚ)
        (a' : TradeAccount),
      apply_order_settlement (some a) side cash_amount realized_pnl_delta = .ok a' →
      a'.buying_power - a.buying_power = a'.balance - a.balance) := by
  constructor
  · exact runSettlements_nonneg reqs account h1 h2
  · intro a side cash_amount realized_pnl_delta a' h
    unfold apply_order_settlement at h
    by_cases hc : cash_amount ≤ 0
    · simp [hc] at h
    · cases side with
      | BUY =>
        by_cases hb : a.balance < cash_amount ∨ a.buying_power < cash_amount
        · simp [hc, hb] at h
        · simp [hc, hb] at h
          subst h
          ring
      | SELL =>
        simp [hc] at h
        subst h
        ring

/-- Witness for `settlements_keep_cash_nonneg`: 100 of cash, a 30 buy then
a 50 sell, stays non-negative. -/
theorem settlements_keep_cash_nonneg_witness :
    0 ≤ (runSettlements { balance := 100, buying_power := 100, realized_pnl := 0 }
          [{ side := .BUY, cash_amount := 30, realized_pnl_delta := 0 },
           { side := .SELL, cash_amount := 50, realized_pnl_delta := 5 }]).balance ∧
    0 ≤ (runSettlements { balance := 100, buying_power := 100, realized_pnl := 0 }
          [{ side := .BUY, cash_amount := 30, realized_pnl_delta := 0 },
           { side := .SELL, cash_amount := 50, realized_pnl_delta := 5 }]).buying_power := by
  have h := settlements_keep_cash_nonneg
    { balance := 100, buying_power := 100, realized_pnl := 0 }
    [{ side := .BUY, cash_amount := 30, realized_pnl_delta := 0 },
     { side := .SELL, cash_amount := 50, realized_pnl_delta := 5 }]
    (by norm_num) (by norm_num)
    (by intro r hr; simp at hr; rcases hr with rfl | rfl <;> norm_num)
  exact h.1

/-- One engine call preserves `availEqQty`. -/
theorem applyOrderOp_preserves_availEqQty (σ : EngineState) (op : OrderOp)
    (h : availEqQty σ) : availEqQty (applyOrderOp σ op) := by
  cases op with
  | buy q p =>
    intro position hpos
    by_cases h1 : q ≤ 0
    · simp [applyOrderOp, place_buy_order, h1] at hpos
      exact h position hpos
    · by_cases h2 : p ≤ 0
      · simp [applyOrderOp, place_buy_order, h1, h2] at hpos
        exact h position hpos
      · cases hs : apply_order_settlement σ.account .BUY (p * (q : ℚ)) 0 with
        | error e =>
          simp [applyOrderOp, place_buy_order, h1, h2, hs] at hpos
          exact h position hpos
        | ok account =>
          cases hb : apply_buy_to_position σ.position q p with
          | error u =>
            simp [applyOrderOp, place_buy_order, h1, h2, hs, hb] at hpos
            exact h position hpos
          | ok p1 =>
            simp [applyOrderOp, place_buy_order, h1, h2, hs, hb] at hpos
            subst hpos
            cases hσp : σ.position with
            | none =>
              rw [hσp, apply_buy_none_eq] at hb
              simp only [Except.ok.injEq] at hb
              subst hb
              rfl
            | some pos =>
              rw [hσp] at hb
              obtain ⟨_, _, hqty, hav, _, _, _, _, _⟩ :=
                apply_buy_some_fields pos p1 q p hb
              rw [hav, hqty, h pos hσp]
  | sell q p =>
    intro position hpos
    by_cases h1 : q ≤ 0
    · simp [applyOrderOp, place_sell_order, h1] at hpos
      exact h position hpos
    · by_cases h2 : p ≤ 0
      · simp [applyOrderOp, place_sell_order, h1, h2] at hpos
        exact h position hpos
      · cases hσp : σ.position with
        | none =>
          simp [applyOrderOp, place_sell_order, h1, h2, hσp] at hpos
        | some pos =>
          by_cases h3 : pos.quantity ≤ 0
          · simp [applyOrderOp, place_sell_order, h1, h2, hσp, h3] at hpos
            subst hpos
            exact h pos hσp
          · by_cases h4 : pos.available_quantity < q
            · simp [applyOrderOp, place_sell_order, h1, h2, hσp, h3, h4] at hpos
              subst hpos
              exact h pos hσp
            · cases hs : apply_order_settlement σ.account .SELL (p * (q : ℚ))
                (calculate_realized_pnl pos.side pos.average_cost p q) with
              | error e =>
                simp [applyOrderOp, place_sell_order, h1, h2, hσp, h3, h4, hs] at hpos
                subst hpos
                exact h pos hσp
              | ok account =>
                simp [applyOrderOp, place_sell_order, h1, h2, hσp, h3, h4, hs] at hpos
                subst hpos
                by_cases hclose : pos.quantity - q ≤ 0
                · obtain ⟨c1, c2, _, _, _, _, _, _, _⟩ :=
                    apply_sell_close_fields pos q p
                      (calculate_realized_pnl pos.side pos.average_cost p q) hclose
                  rw [c1, c2]
                · obtain ⟨p1', p2', _, _, _, _, _, _, _⟩ :=
                    apply_sell_partial_fields pos q p
                      (calculate_realized_pnl pos.side pos.average_cost p q) (by omega)
                  rw [p1', p2', h pos hσp]

/-- A whole sequence of engine calls preserves `availEqQty`. -/
theorem runOrderOps_preserves_availEqQty (ops : List OrderOp) :
    ∀ σ : EngineState, availEqQty σ → availEqQty (runOrderOps σ ops) := by
  induction ops with
  | nil => exact fun σ h => h
  | cons op rest ih =>
    intro σ h
    exact ih (applyOrderOp σ op) (applyOrderOp_preserves_availEqQty σ op h)

/-- C10: positions created and mutated only through the order engine always
have available_quantity = quantity — each engine call preserves the
equality and any call sequence from a state with no position row yields only
rows satisfying it. -/
theorem available_equals_quantity_invariant :
    (∀ (σ : EngineState) (op : OrderOp), availEqQty σ → availEqQty (applyOrderOp σ op)) ∧
    (∀ (σ : EngineState) (ops : List OrderOp), σ.position = none →
      availEqQty (runOrderOps σ ops)) := by
  constructor
  · exact applyOrderOp_preserves_availEqQty
  · intro σ ops hσ
    apply runOrderOps_preserves_availEqQty
    intro position hp
    rw [hσ] at hp
    cases hp

/-- Witness for `available_equals_quantity_invariant`: buying 10@100 then
selling 4@150 from 10000 of cash leaves a 6-share position with
available_quantity = quantity. -/
theorem available_equals_quantity_invariant_witness :
    (runOrderOps
        { account := some { balance := 10000, buying_power := 10000, realized_pnl := 0 },
          position := none, orders := [] }
        [.buy 10 100, .sell 4 150]).position
      = some { side := .LONG, quantity := 6, available_quantity := 6,
               average_cost := 100, market_price := some 150, market_value := 900,
               unrealized_pnl := 300, realized_pnl := 200, status := .OPEN } ∧
    ({ side := .LONG, quantity := 6, available_quantity := 6,
       average_cost := 100, market_price := some 150, market_value := 900,
       unrealized_pnl := 300, realized_pnl := 200,
       status := .OPEN } : VirtualTradePosition).available_quantity
      = ({ side := .LONG, quantity := 6, available_quantity := 6,
           average_cost := 100, market_price := some 150, market_value := 900,
           unrealized_pnl := 300, realized_pnl := 200,
           status := .OPEN } : VirtualTradePosition).quantity := by
  have hrun : (runOrderOps
      { account := some { balance := 10000, buying_power := 10000, realized_pnl := 0 },
        position := none, orders := [] }
      [.buy 10 100, .sell 4 150]).position
      = some { side := .LONG, quantity := 6, available_quantity := 6,
               average_cost := 100, market_price := some 150, market_value := 900,
               unrealized_pnl := 300, realized_pnl := 200, status := .OPEN } := by
    norm_num [runOrderOps, applyOrderOp, place_buy_order, place_sell_order,
      apply_order_settlement, apply_buy_to_position, apply_sell_to_position,
      calculate_realized_pnl, calculate_unrealized]
  have hinv := available_equals_quantity_invariant.2
    { account := some { balance := 10000, buying_power := 10000, realized_pnl := 0 },
      position := none, orders := [] }
    [.buy 10 100, .sell 4 150] rfl
  exact ⟨hrun, hinv _ hrun⟩

/-- Past `end_date` the trading-day loop stops. -/
theorem iterFrom_stop (e iv cur : ℤ) (h : ¬ (cur ≤ e ∧ 0 < iv)) :
    iterTradingDaysFrom e iv cur = [] := by
  rw [iterTradingDaysFrom]
  simp [h]

/-- Within range, the trading-day loop yields the current date when it is a
weekday and recurses at `cur + iv`. -/
theorem iterFrom_step (e iv cur : ℤ) (h1 : cur ≤ e) (h2 : 0 < iv) :
    iterTradingDaysFrom e iv cur =
      (if isTradingDay cur then [cur] else []) ++ iterTradingDaysFrom e iv (cur + iv) := by
  rw [iterTradingDaysFrom]
  simp [h1, h2]

/-- Membership in the trading-day loop's output: exactly the weekday dates of
the arithmetic progression that fall inside the range. -/
theorem iterFrom_mem (e iv : ℤ) (hiv : 0 < iv) (cur d : ℤ) :
    d ∈ iterTradingDaysFrom e iv cur ↔
      ∃ k : ℕ, d = cur + (k : ℤ) * iv ∧ d ≤ e ∧ isTradingDay d = true := by
  have main : ∀ n : ℕ, ∀ cur : ℤ, (e + 1 - cur).toNat = n → ∀ d : ℤ,
      (d ∈ iterTradingDaysFrom e iv cur ↔
        ∃ k : ℕ, d = cur + (k : ℤ) * iv ∧ d ≤ e ∧ isTradingDay d = true) := by
    intro n
    induction n using Nat.strong_induction_on with
    | _ n ih =>
      intro cur hn d
      by_cases hc : cur ≤ e
      · rw [iterFrom_step e iv cur hc hiv]
        constructor
        · intro hd
          rcases List.mem_append.mp hd with hd | hd
          · by_cases ht : isTradingDay cur = true
            · simp [ht] at hd
              subst hd
              exact ⟨0, by simp, hc, ht⟩
            · simp [ht] at hd
          · obtain ⟨k, hk, hle, htr⟩ :=
              (ih (e + 1 - (cur + iv)).toNat (by omega) (cur + iv) rfl d).mp hd
            refine ⟨k + 1, ?_, hle, htr⟩
            rw [hk]
            push_cast
            ring
        · rintro ⟨k, rfl, hle, htr⟩
          cases k with
          | zero =>
            apply List.mem_append_left
            have hz : cur + ((0 : ℕ) : ℤ) * iv = cur := by
              push_cast
              ring
            rw [hz] at htr ⊢
            simp [htr]
          | succ k' =>
            apply List.mem_append_right
            apply (ih (e + 1 - (cur + iv)).toNat (by omega) (cur + iv) rfl _).mpr
            refine ⟨k', ?_, hle, htr⟩
            push_cast
            ring
      · rw [iterFrom_stop e iv cur (by tauto)]
        simp only [List.not_mem_nil, false_iff]
        rintro ⟨k, rfl, hle, _⟩
        have hk0 : (0 : ℤ) ≤ (k : ℤ) * iv :=
          mul_nonneg (by exact_mod_cast Nat.zero_le k) (le_of_lt hiv)
        have : e < cur := by omega
        linarith
  exact main (e + 1 - cur).toNat cur rfl d

/-- Every date yielded by the loop is at least the current date. -/
theorem iterFrom_lb (e iv : ℤ) (hiv : 0 < iv) (cur d : ℤ)
    (hd : d ∈ iterTradingDaysFrom e iv cur) : cur ≤ d := by
  obtain ⟨k, rfl, _, _⟩ := (iterFrom_mem e iv hiv cur d).mp hd
  have hk0 : (0 : ℤ) ≤ (k : ℤ) * iv :=
    mul_nonneg (by exact_mod_cast Nat.zero_le k) (le_of_lt hiv)
  linarith

/-- The loop's output is strictly increasing. -/
theorem iterFrom_pairwise (e iv : ℤ) (hiv : 0 < iv) (cur : ℤ) :
    (iterTradingDaysFrom e iv cur).Pairwise (· < ·) := by
  have main : ∀ n : ℕ, ∀ cur : ℤ, (e + 1 - cur).toNat = n →
      (iterTradingDaysFrom e iv cur).Pairwise (· < ·) := by
    intro n
    induction n using Nat.strong_induction_on with
    | _ n ih =>
      intro cur hn
      by_cases hc : cur ≤ e
      · rw [iterFrom_step e iv cur hc hiv]
        rw [List.pairwise_append]
        refine ⟨?_, ih (e + 1 - (cur + iv)).toNat (by omega) (cur + iv) rfl, ?_⟩
        · by_cases ht : isTradingDay cur = true <;> simp [ht]
        · intro a ha b hb
          have hb' : cur + iv ≤ b := iterFrom_lb e iv hiv (cur + iv) b hb
          by_cases ht : isTradingDay cur = true
          · simp [ht] at ha
            subst ha
            linarith
          · simp [ht] at ha
      · rw [iterFrom_stop e iv cur (by tauto)]
        exact List.Pairwise.nil
  exact main (e + 1 - cur).toNat cur rfl

/-- C9: for `start_date ≤ end_date` and `interval_days ≥ 1`, the backtest's
decision dates are exactly the dates `start_date + k × interval_days` that
are `≤ end_date` and fall Monday-Friday, in strictly increasing order;
weekend dates are skipped outright, not deferred. -/
theorem trading_days_enumeration (start_date end_date interval_days : ℤ)
    (_hse : start_date ≤ end_date) (hiv : 1 ≤ interval_days) :
    (∀ d : ℤ, d ∈ iter_trading_days start_date end_date interval_days ↔
      ∃ k : ℕ, d = start_date + (k : ℤ) * interval_days ∧ d ≤ end_date ∧
        isTradingDay d = true) ∧
    (iter_trading_days start_date end_date interval_days).Pairwise (· < ·) := by
  constructor
  · intro d
    exact iterFrom_mem end_date interval_days (by omega) start_date d
  · exact iterFrom_pairwise end_date interval_days (by omega) start_date

/-- Witness for `trading_days_enumeration` on ordinal days 1 (a Monday)
through 8: day 5 (Friday) is kept, day 6 (Saturday) is skipped, and the
sequence is strictly increasing. -/
theorem trading_days_enumeration_witness :
    (5 : ℤ) ∈ iter_trading_days 1 8 1 ∧
    (6 : ℤ) ∉ iter_trading_days 1 8 1 ∧
    (iter_trading_days 1 8 1).Pairwise (· < ·) := by
  have h := trading_days_enumeration 1 8 1 (by norm_num) (by norm_num)
  refine ⟨?_, ?_, h.2⟩
  · exact (h.1 5).mpr ⟨4, by norm_num, by norm_num, by decide⟩
  · intro hmem
    obtain ⟨k, hk, _, htr⟩ := (h.1 6).mp hmem
    exact absurd htr (by decide)

end AgentQuant
